import Mathlib

/-!
Shallow embedding of `src/index.ts` of the ditter repository: a Discord
interaction webhook relay. The worker verifies an Ed25519 request signature,
dispatches on interaction type, and implements four commands: Follow,
Unfollow, setwebhook and deet (broadcast). State is two key-value
namespaces, `followers` (user id to JSON array of follower ids) and
`webhooks` (user id to delivery URL). We model the stores as functions from
keys to optional values (the JSON round-trip of a string array is the
identity on the modelled value), external effects (signature verification,
JSON body parsing, outbound fetch) as explicit function parameters, and the
store operations performed by a handler as an explicit operation trace.
-/

namespace Ditter

/-- A Discord user as used by the code: `id`, `username`, `discriminator`
and the optional `avatar` hash (`APIUser`). -/
structure APIUser where
  id : String
  username : String
  discriminator : String
  avatar : Option String
  deriving DecidableEq, Repr

/-- The two KV namespaces bound to the worker: `followers` maps a target
user id to the stored JSON array of follower ids, `webhooks` maps a user id
to the registered delivery URL. `none` models an absent key. -/
structure Stores where
  followers : String → Option (List String)
  webhooks : String → Option String

/-- One store access, in order of execution: the operation trace of a
handler records every get and put against either namespace. -/
inductive StoreOp where
  | getFollowers (key : String)
  | putFollowers (key : String) (value : List String)
  | getWebhooks (key : String)
  | putWebhooks (key : String) (value : String)
  deriving DecidableEq, Repr

/-- The interaction responses the code constructs: `Pong` for a ping, and
a `ChannelMessageWithSource` with a content string and the `Ephemeral`
flag for every command. -/
inductive InteractionResponse where
  | pong
  | channelMessage (content : String) (ephemeral : Bool)
  deriving DecidableEq, Repr

/-- JavaScript `new Set(array)` iteration order: first occurrence of each
element is kept, later duplicates are dropped. `seen` accumulates the
elements already emitted. -/
def jsSetAux (seen : List String) : List String → List String
  | [] => []
  | x :: rest => if x ∈ seen then jsSetAux seen rest else x :: jsSetAux (x :: seen) rest

/-- `Array.from(new Set(l).values())`: deduplicate keeping first
occurrences, preserving insertion order. -/
def jsSet (l : List String) : List String := jsSetAux [] l

/-- JavaScript `Set.prototype.add`: append `x` if absent, no-op if
present. -/
def setAdd (l : List String) (x : String) : List String :=
  if x ∈ l then l else l ++ [x]

/-- JavaScript `Set.prototype.delete`: remove `x` (on a duplicate-free
list, removal of the single occurrence; `filter` agrees on such lists). -/
def setDelete (l : List String) (x : String) : List String :=
  l.filter (fun y => y ≠ x)

/-- The value read by `followers.get(targetId, 'json') ?? []`. -/
def getFollowersOrEmpty (st : Stores) (key : String) : List String :=
  (st.followers key).getD []

/-- Functional update of the `followers` namespace at one key
(`followers.put`). -/
def putFollowersStore (st : Stores) (key : String) (value : List String) : Stores :=
  { st with followers := fun k => if k = key then some value else st.followers k }

/-- Functional update of the `webhooks` namespace at one key
(`webhooks.put`). -/
def putWebhooksStore (st : Stores) (key : String) (value : String) : Stores :=
  { st with webhooks := fun k => if k = key then some value else st.webhooks k }

/-- The JSON body of one outbound webhook delivery, together with the URL
it is posted to (`RESTPostAPIWebhookWithTokenJSONBody` plus the target).
`allowedMentionsParse` is the `allowed_mentions.parse` array. -/
structure WebhookPost where
  url : String
  username : String
  avatar_url : Option String
  content : String
  allowedMentionsParse : List String
  deriving DecidableEq, Repr

/-- Outcome of one outbound `fetch`: a response with `res.ok` true, a
response with `res.ok` false carrying the response text, or a transport
exception. -/
inductive FetchResult where
  | ok
  | notOk (body : String)
  | transportError (msg : String)
  deriving DecidableEq, Repr

/-- Result of the whole handler chain for one request: the interaction
response or the request-terminating error, the stores after the request,
the store-operation trace, the outbound posts issued, and the warnings
logged for caught delivery failures. -/
structure Outcome where
  result : Except String InteractionResponse
  stores : Stores
  ops : List StoreOp
  posts : List WebhookPost
  warnings : List String

/-- An outcome that terminates the request with an error before touching
the stores or the network. -/
def errOutcome (msg : String) (st : Stores) : Outcome :=
  { result := .error msg, stores := st, ops := [], posts := [], warnings := [] }

/-- The `follow` handler: read the target's follower array (empty if
absent), convert to a JS `Set`, `add` the invoking user's id, write the
full set back, and answer with an ephemeral `followed <@target>!`. -/
def follow (st : Stores) (user : APIUser) (targetId : String) : Outcome :=
  let existing := jsSet (getFollowersOrEmpty st targetId)
  let updated := setAdd existing user.id
  { result := .ok (.channelMessage ("followed <@" ++ targetId ++ ">!") true)
    stores := putFollowersStore st targetId updated
    ops := [.getFollowers targetId, .putFollowers targetId updated]
    posts := []
    warnings := [] }

/-- The `unfollow` handler: read the target's follower array (empty if
absent), convert to a JS `Set`, `delete` the invoking user's id, write the
full set back, and answer with an ephemeral `unfollowed <@target>!`. -/
def unfollow (st : Stores) (user : APIUser) (targetId : String) : Outcome :=
  let existing := jsSet (getFollowersOrEmpty st targetId)
  let updated := setDelete existing user.id
  { result := .ok (.channelMessage ("unfollowed <@" ++ targetId ++ ">!") true)
    stores := putFollowersStore st targetId updated
    ops := [.getFollowers targetId, .putFollowers targetId updated]
    posts := []
    warnings := [] }

/-- `data.options?.find(option => option.name === name)`: look up a named
string option in a chat-input command's option list. -/
def findOption (options : List (String × String)) (name : String) : Option String :=
  (options.find? (fun o => o.1 = name)).map Prod.snd

/-- The `setwebhook` handler: read the required `url` option and overwrite
the invoking user's webhook registration unconditionally. A missing
option makes `url.value` throw a `TypeError` that terminates the request
(the code does not check). -/
def setWebhook (st : Stores) (user : APIUser) (options : List (String × String)) : Outcome :=
  match findOption options "url" with
  | none => errOutcome "TypeError: url option missing" st
  | some urlValue =>
      { result := .ok (.channelMessage "webhook set" true)
        stores := putWebhooksStore st user.id urlValue
        ops := [.putWebhooks user.id urlValue]
        posts := []
        warnings := [] }

/-- `user.avatar ? cdn-url : undefined`: the avatar URL built from the
invoking user's id and avatar hash. JS truthiness means an empty-string
hash also yields `undefined`. -/
def avatarUrl (user : APIUser) : Option String :=
  match user.avatar with
  | none => none
  | some a =>
      if a = "" then none
      else some ("https://cdn.discordapp.com/avatars/" ++ user.id ++ "/" ++ a ++ ".png")

/-- The per-follower body construction and URL lookup of `sendDeet`: look
up the follower's webhook URL; `if (!url) return` skips an absent key and
(by JS truthiness) an empty-string URL; otherwise build the delivery
payload for the invoking user and content. -/
def mkDeetPost (wh : String → Option String) (user : APIUser) (contentValue : String)
    (follower : String) : Option WebhookPost :=
  match wh follower with
  | none => none
  | some url =>
      if url = "" then none
      else some
        { url := url
          username := user.username ++ "#" ++ user.discriminator
          avatar_url := avatarUrl user
          content := contentValue
          allowedMentionsParse := [] }

/-- The body of the `try` block of one delivery: await the fetch and throw
when the response is not OK; a transport failure is a thrown exception as
well. -/
def deliveryTry (fetch : String → FetchResult) (url : String) : Except String Unit :=
  match fetch url with
  | .ok => .ok ()
  | .notOk b => .error ("response not OK: " ++ b)
  | .transportError m => .error m

/-- The `try { ... } catch (e) { console.warn(e) }` around one delivery:
any thrown error is caught at the per-follower scope and turned into a
logged warning; nothing propagates. -/
def deliverCaught (fetch : String → FetchResult) (url : String) : List String :=
  match deliveryTry fetch url with
  | .ok _ => []
  | .error e => [e]

/-- The `deet` broadcast handler: read the required `content` option (a
missing option throws a `TypeError`), read the invoking user's follower
array (empty if absent), then for each follower look up its webhook URL,
skip it when falsy, and otherwise issue one outbound POST whose failure is
caught per follower. Always answers with the ephemeral `deet sent`
acknowledgement. -/
def sendDeet (fetch : String → FetchResult) (st : Stores) (user : APIUser)
    (options : List (String × String)) : Outcome :=
  match findOption options "content" with
  | none => errOutcome "TypeError: content option missing" st
  | some contentValue =>
      let f := getFollowersOrEmpty st user.id
      let posts := f.filterMap (mkDeetPost st.webhooks user contentValue)
      { result := .ok (.channelMessage "deet sent" true)
        stores := st
        ops := .getFollowers user.id :: f.map .getWebhooks
        posts := posts
        warnings := (posts.map (fun p => deliverCaught fetch p.url)).flatten }

/-- `ApplicationCommand.data`, branched on `data.type`: a user-context
command carries a name and `target_id`; a chat-input command carries a
name and its option list; any other command-data type is rejected by the
dispatcher. -/
inductive CommandData where
  | userCmd (name : String) (targetId : String)
  | chatInput (name : String) (options : List (String × String))
  | otherType (t : Nat)
  deriving DecidableEq, Repr

/-- A parsed `APIInteraction`: a ping, an application command with its
optional `member.user` and `user` fields plus command data, or an
unrecognized interaction type. -/
inductive Interaction where
  | ping
  | applicationCommand (memberUser : Option APIUser) (user : Option APIUser)
      (data : CommandData)
  | otherType (t : Nat)
  deriving DecidableEq, Repr

/-- `handleUserCommand`: dispatch a user-context command by name:
`Follow`, `Unfollow`, else a request-terminating error. -/
def handleUserCommand (st : Stores) (user : APIUser) (name targetId : String) : Outcome :=
  if name = "Follow" then follow st user targetId
  else if name = "Unfollow" then unfollow st user targetId
  else errOutcome ("invalid user command \x22" ++ name ++ "\x22") st

/-- `handleChatInput`: dispatch a chat-input command by name: `deet`,
`setwebhook`, else a request-terminating error. -/
def handleChatInput (fetch : String → FetchResult) (st : Stores) (user : APIUser)
    (name : String) (options : List (String × String)) : Outcome :=
  if name = "deet" then sendDeet fetch st user options
  else if name = "setwebhook" then setWebhook st user options
  else errOutcome ("invalid chat input option \x22" ++ name ++ "\x22") st

/-- `handleApplicationCommand`: resolve the invoking user as
`message.member?.user ?? message.user!` (both absent is a `TypeError` when
the handlers read the user) and branch on the command-data type. -/
def handleApplicationCommand (fetch : String → FetchResult) (st : Stores)
    (memberUser user : Option APIUser) (data : CommandData) : Outcome :=
  match memberUser.orElse (fun _ => user) with
  | none => errOutcome "TypeError: no invoking user" st
  | some u =>
      match data with
      | .userCmd name targetId => handleUserCommand st u name targetId
      | .chatInput name options => handleChatInput fetch st u name options
      | .otherType t => errOutcome ("invalid interaction type \x22" ++ toString t ++ "\x22") st

/-- `handlePing`: a ping always answers `Pong`. -/
def handlePing : InteractionResponse := .pong

/-- An inbound HTTP request as `handleInteraction` sees it: the method,
the optional `X-Signature-Ed25519` and `X-Signature-Timestamp` headers,
and the raw text body. -/
structure Request where
  method : String
  signatureHeader : Option String
  timestampHeader : Option String
  body : String
  deriving DecidableEq, Repr

/-- Modelled from the spec: the contract of the external signature
verifier (`verifyKey` from the `discord-interactions` package, not part of
this repository). Inputs with a missing signature or timestamp header are
treated as invalid — the verifier never reports a missing header as a
valid signature. -/
def verifierRejectsMissing (verify : String → Option String → Option String → Bool) : Prop :=
  ∀ b s t, s = none ∨ t = none → verify b s t = false

/-- `handleInteraction`: reject non-POST methods, verify the signature
over the raw body with the (possibly missing) headers — an invalid verdict
terminates the request before the body is parsed — then `JSON.parse` the
body and dispatch on the interaction type: ping, application command, or a
request-terminating error for anything else. `verify` is the external
signature verifier, `parse` the JSON parser producing an `Interaction`
(`none` models a parse exception), `fetch` the outbound HTTP effect. -/
def handleInteraction (verify : String → Option String → Option String → Bool)
    (parse : String → Option Interaction) (fetch : String → FetchResult)
    (st : Stores) (r : Request) : Outcome :=
  if r.method ≠ "POST" then errOutcome "Expected POST request" st
  else if verify r.body r.signatureHeader r.timestampHeader = false then
    errOutcome "Invalid signature" st
  else
    match parse r.body with
    | none => errOutcome "SyntaxError: invalid JSON body" st
    | some msg =>
        match msg with
        | .ping =>
            { result := .ok handlePing, stores := st, ops := [], posts := [], warnings := [] }
        | .applicationCommand memberUser user data =>
            handleApplicationCommand fetch st memberUser user data
        | .otherType t =>
            errOutcome ("invalid interaction type \x22" ++ toString t ++ "\x22") st

/-! ### Lemmas about the JS `Set` model -/

theorem mem_jsSetAux {x : String} :
    ∀ (seen l : List String), x ∈ jsSetAux seen l ↔ x ∈ l ∧ x ∉ seen := by
  intro seen l
  induction l generalizing seen with
  | nil => simp [jsSetAux]
  | cons y rest ih =>
      by_cases hy : y ∈ seen
      · simp only [jsSetAux, if_pos hy, ih, List.mem_cons]
        constructor
        · rintro ⟨hm, hs⟩
          exact ⟨Or.inr hm, hs⟩
        · rintro ⟨hm | hm, hs⟩
          · exact absurd (hm ▸ hy) hs
          · exact ⟨hm, hs⟩
      · rcases eq_or_ne x y with rfl | hxy
        · simp [jsSetAux, if_neg hy, ih, hy]
        · simp only [jsSetAux, if_neg hy, List.mem_cons, ih]
          constructor
          · rintro (rfl | ⟨hm, hs⟩)
            · exact absurd rfl hxy
            · refine ⟨Or.inr hm, fun hx => hs (Or.inr hx)⟩
          · rintro ⟨rfl | hm, hs⟩
            · exact absurd rfl hxy
            · exact Or.inr ⟨hm, fun hx => by
                rcases hx with h | h
                · exact hxy h
                · exact hs h⟩

theorem mem_jsSet {x : String} {l : List String} : x ∈ jsSet l ↔ x ∈ l := by
  simp [jsSet, mem_jsSetAux]

theorem nodup_jsSetAux : ∀ (seen l : List String), (jsSetAux seen l).Nodup := by
  intro seen l
  induction l generalizing seen with
  | nil => simp [jsSetAux]
  | cons y rest ih =>
      by_cases hy : y ∈ seen
      · simpa [jsSetAux, if_pos hy] using ih seen
      · simp only [jsSetAux, if_neg hy]
        refine List.nodup_cons.mpr ⟨?_, ih (y :: seen)⟩
        intro hmem
        exact ((mem_jsSetAux _ _).mp hmem).2 (List.mem_cons_self _ _)

theorem nodup_jsSet (l : List String) : (jsSet l).Nodup := nodup_jsSetAux [] l

theorem jsSetAux_eq_self : ∀ (seen l : List String), l.Nodup → (∀ x ∈ l, x ∉ seen) →
    jsSetAux seen l = l := by
  intro seen l
  induction l generalizing seen with
  | nil => intro _ _; rfl
  | cons y rest ih =>
      intro hnd hdis
      have hy : y ∉ seen := hdis y (List.mem_cons_self _ _)
      have hnd' := List.nodup_cons.mp hnd
      simp only [jsSetAux, if_neg hy]
      congr 1
      refine ih (y :: seen) hnd'.2 ?_
      intro x hx
      intro hmem
      rcases List.mem_cons.mp hmem with h | h
      · exact hnd'.1 (h ▸ hx)
      · exact hdis x (List.mem_cons_of_mem _ hx) h

theorem jsSet_eq_self {l : List String} (h : l.Nodup) : jsSet l = l :=
  jsSetAux_eq_self [] l h (by intro x _ hx; cases hx)

theorem nodup_setAdd {l : List String} {x : String} (h : l.Nodup) : (setAdd l x).Nodup := by
  unfold setAdd
  by_cases hx : x ∈ l
  · simpa [if_pos hx]
  · rw [if_neg hx]
    refine List.Nodup.append h (List.nodup_singleton x) ?_
    intro a ha hb
    rcases List.mem_singleton.mp hb with rfl
    exact hx ha

theorem mem_setAdd_self (l : List String) (x : String) : x ∈ setAdd l x := by
  unfold setAdd
  by_cases hx : x ∈ l
  · simpa [if_pos hx]
  · rw [if_neg hx]
    exact List.mem_append_right _ (List.mem_singleton_self x)

theorem setAdd_of_mem {l : List String} {x : String} (h : x ∈ l) : setAdd l x = l := by
  simp [setAdd, if_pos h]

theorem setDelete_of_not_mem {l : List String} {x : String} (h : x ∉ l) :
    setDelete l x = l := by
  unfold setDelete
  refine List.filter_eq_self.mpr ?_
  intro a ha
  have : a ≠ x := fun hax => h (hax ▸ ha)
  simpa using this

theorem length_filterMap_eq_countP {α β : Type} (g : α → Option β) (l : List α) :
    (l.filterMap g).length = l.countP (fun x => (g x).isSome) := by
  induction l with
  | nil => rfl
  | cons x xs ih =>
      cases h : g x <;>
        simp [List.filterMap_cons, h, List.countP_cons, ih]

theorem countP_not_eq_length_sub {α : Type} (p : α → Bool) (l : List α) :
    l.countP (fun a => !(p a)) = l.length - l.countP p := by
  induction l with
  | nil => rfl
  | cons x xs ih =>
      have hle : xs.countP p ≤ xs.length := List.countP_le_length p
      cases h : p x
      · simp [List.countP_cons, h, ih]
        omega
      · simp [List.countP_cons, h, ih]

theorem countP_congr_mem {α : Type} {p q : α → Bool} {l : List α}
    (h : ∀ a ∈ l, p a = q a) : l.countP p = l.countP q := by
  induction l with
  | nil => rfl
  | cons x xs ih =>
      have hx := h x (List.mem_cons_self _ _)
      have ih' := ih fun a ha => h a (List.mem_cons_of_mem _ ha)
      simp [List.countP_cons, hx, ih']

/-! ### Claim theorems -/

/-- C2: Follow is idempotent — from any starting store, running `follow`
twice for the same user and target leaves the target's stored follower set
equal to running it once, and the invoking user's id appears exactly once
in the stored set after one `follow` (set semantics, no duplicates). -/
theorem follow_idempotent (st : Stores) (user : APIUser) (targetId : String) :
    (follow (follow st user targetId).stores user targetId).stores.followers targetId
      = (follow st user targetId).stores.followers targetId
    ∧ List.count user.id
        (((follow st user targetId).stores.followers targetId).getD []) = 1 := by
  have hnd : (setAdd (jsSet (getFollowersOrEmpty st targetId)) user.id).Nodup :=
    nodup_setAdd (nodup_jsSet _)
  have hmem : user.id ∈ setAdd (jsSet (getFollowersOrEmpty st targetId)) user.id :=
    mem_setAdd_self _ _
  have e1 : (follow st user targetId).stores.followers targetId
      = some (setAdd (jsSet (getFollowersOrEmpty st targetId)) user.id) := by
    simp [follow, putFollowersStore]
  have e2 : getFollowersOrEmpty (follow st user targetId).stores targetId
      = setAdd (jsSet (getFollowersOrEmpty st targetId)) user.id := by
    simp [getFollowersOrEmpty, e1]
  constructor
  · have e3 : (follow (follow st user targetId).stores user targetId).stores.followers targetId
        = some (setAdd (jsSet (getFollowersOrEmpty (follow st user targetId).stores targetId))
            user.id) := by
      simp [follow, putFollowersStore]
    rw [e3, e2, jsSet_eq_self hnd, setAdd_of_mem hmem, e1]
  · rw [e1]
    simpa using List.count_eq_one_of_mem hnd hmem

/-- C3: Unfollow of a non-follower is a no-op — when the invoking user's id
is not in the target's stored follower set, `unfollow` leaves that set
unchanged as a set and returns the normal ephemeral acknowledgement, with
no error. -/
theorem unfollow_nonfollower (st : Stores) (user : APIUser) (targetId : String)
    (h : user.id ∉ getFollowersOrEmpty st targetId) :
    (∀ x, x ∈ getFollowersOrEmpty (unfollow st user targetId).stores targetId ↔
        x ∈ getFollowersOrEmpty st targetId)
    ∧ (unfollow st user targetId).result
        = .ok (.channelMessage ("unfollowed <@" ++ targetId ++ ">!") true) := by
  have hnm : user.id ∉ jsSet (getFollowersOrEmpty st targetId) :=
    fun hx => h (mem_jsSet.mp hx)
  have e1 : (unfollow st user targetId).stores.followers targetId
      = some (jsSet (getFollowersOrEmpty st targetId)) := by
    simp [unfollow, putFollowersStore, setDelete_of_not_mem hnm]
  refine ⟨?_, rfl⟩
  intro x
  rw [getFollowersOrEmpty, e1]
  simpa using mem_jsSet

/-- C10: Follow and Unfollow both unconditionally issue exactly one put to
the followers store on every invocation — for any starting store, any
invoking user and any target, whether or not membership changes; and in
the no-op case (Unfollow of a non-follower) the written value equals the
current follower set as a set, rather than the write being skipped. -/
theorem followUnfollow_always_put (st : Stores) (user : APIUser) (targetId : String) :
    (∃ v, (follow st user targetId).ops
        = [.getFollowers targetId, .putFollowers targetId v])
    ∧ (∃ v, (unfollow st user targetId).ops
        = [.getFollowers targetId, .putFollowers targetId v])
    ∧ (user.id ∉ getFollowersOrEmpty st targetId →
        (unfollow st user targetId).ops
          = [.getFollowers targetId,
             .putFollowers targetId (jsSet (getFollowersOrEmpty st targetId))]
        ∧ ∀ x, x ∈ jsSet (getFollowersOrEmpty st targetId) ↔
            x ∈ getFollowersOrEmpty st targetId) := by
  refine ⟨⟨setAdd (jsSet (getFollowersOrEmpty st targetId)) user.id, rfl⟩,
    ⟨setDelete (jsSet (getFollowersOrEmpty st targetId)) user.id, rfl⟩,
    fun h => ?_⟩
  have hnm : user.id ∉ jsSet (getFollowersOrEmpty st targetId) :=
    fun hx => h (mem_jsSet.mp hx)
  exact ⟨by simp [unfollow, setDelete_of_not_mem hnm], fun x => mem_jsSet⟩

/-- C1: An inbound request whose signature is invalid, or whose signature
or timestamp header is missing (the verifier treats a missing header as
invalid, per its contract), is rejected with a request-terminating error;
the stores are unchanged, no store operation and no outbound post is
issued, and the outcome does not depend on the body parser or the fetch
effect — the rejection happens before the body is parsed. -/
theorem invalid_signature_rejected
    (verify : String → Option String → Option String → Bool)
    (parse parseAlt : String → Option Interaction)
    (fetch fetchAlt : String → FetchResult) (st : Stores) (r : Request)
    (h : verify r.body r.signatureHeader r.timestampHeader = false
        ∨ (verifierRejectsMissing verify
            ∧ (r.signatureHeader = none ∨ r.timestampHeader = none))) :
    (∃ e, (handleInteraction verify parse fetch st r).result = .error e)
    ∧ (handleInteraction verify parse fetch st r).stores = st
    ∧ (handleInteraction verify parse fetch st r).ops = []
    ∧ (handleInteraction verify parse fetch st r).posts = []
    ∧ handleInteraction verify parse fetch st r
        = handleInteraction verify parseAlt fetchAlt st r := by
  have hv : verify r.body r.signatureHeader r.timestampHeader = false := by
    rcases h with h | ⟨hrm, hmiss⟩
    · exact h
    · exact hrm _ _ _ hmiss
  by_cases hm : r.method = "POST"
  · simp [handleInteraction, hm, hv, errOutcome]
  · simp [handleInteraction, hm, errOutcome]

/-- C9: A validly signed POST request whose body parses to a Ping yields
the Pong response and performs no store operation, no store change, and no
outbound post. -/
theorem ping_pong_no_store_access
    (verify : String → Option String → Option String → Bool)
    (parse : String → Option Interaction) (fetch : String → FetchResult)
    (st : Stores) (r : Request)
    (hm : r.method = "POST")
    (hv : verify r.body r.signatureHeader r.timestampHeader = true)
    (hp : parse r.body = some .ping) :
    (handleInteraction verify parse fetch st r).result = .ok .pong
    ∧ (handleInteraction verify parse fetch st r).stores = st
    ∧ (handleInteraction verify parse fetch st r).ops = []
    ∧ (handleInteraction verify parse fetch st r).posts = [] := by
  simp [handleInteraction, hm, hv, hp, handlePing]

/-- C4: A per-follower delivery failure is caught at the per-follower
scope: for any fetch behaviour the broadcast still answers the normal
ephemeral `deet sent` acknowledgement, the set of posts issued is the same
under any two fetch behaviours (no delivery affects another), the stores
are untouched, and a failing delivery only contributes a logged warning. -/
theorem deliveryFailure_isolated (fetch fetchAlt : String → FetchResult) (st : Stores)
    (user : APIUser) (options : List (String × String)) (c : String)
    (hc : findOption options "content" = some c) :
    (sendDeet fetch st user options).result = .ok (.channelMessage "deet sent" true)
    ∧ (sendDeet fetch st user options).posts = (sendDeet fetchAlt st user options).posts
    ∧ (sendDeet fetch st user options).stores = st
    ∧ ∀ p ∈ (sendDeet fetch st user options).posts, ∀ e,
        deliveryTry fetch p.url = .error e →
        e ∈ (sendDeet fetch st user options).warnings := by
  refine ⟨by simp [sendDeet, hc], by simp [sendDeet, hc], by simp [sendDeet, hc], ?_⟩
  intro p hp e he
  simp only [sendDeet, hc] at hp ⊢
  rw [List.mem_flatten]
  refine ⟨deliverCaught fetch p.url, List.mem_map_of_mem _ hp, ?_⟩
  simp [deliverCaught, he]

/-- C5: In a broadcast whose follower list has exactly one entry with no
registered webhook (and, per the data-model invariant, every registered
URL is a nonempty string), the number of outbound posts is exactly the
number of followers minus one. -/
theorem broadcast_skips_unregistered (fetch : String → FetchResult) (st : Stores)
    (user : APIUser) (options : List (String × String)) (c : String)
    (hc : findOption options "content" = some c)
    (hone : List.countP (fun fo => (st.webhooks fo).isNone)
        (getFollowersOrEmpty st user.id) = 1)
    (hurl : ∀ fo ∈ getFollowersOrEmpty st user.id, ∀ u,
        st.webhooks fo = some u → u ≠ "") :
    (sendDeet fetch st user options).posts.length
      = (getFollowersOrEmpty st user.id).length - 1 := by
  have hposts : (sendDeet fetch st user options).posts
      = (getFollowersOrEmpty st user.id).filterMap
          (mkDeetPost st.webhooks user c) := by
    simp [sendDeet, hc]
  rw [hposts, length_filterMap_eq_countP]
  have hcong : ∀ fo ∈ getFollowersOrEmpty st user.id,
      (mkDeetPost st.webhooks user c fo).isSome
        = !((st.webhooks fo).isNone) := by
    intro fo hfo
    cases hw : st.webhooks fo with
    | none => simp [mkDeetPost, hw]
    | some u =>
        have hu : u ≠ "" := hurl fo hfo u hw
        simp [mkDeetPost, hw, hu]
  rw [countP_congr_mem hcong, countP_not_eq_length_sub, hone]

/-- C6: Every outbound post of a broadcast carries the invoking user's
`username#discriminator` as display name, the `content` option's value as
content, an empty `allowed_mentions.parse` array, and an avatar URL built
from the user's id and avatar hash that is present exactly when the user
has an avatar hash (assumed nonempty, as Discord avatar hashes are). -/
theorem deet_post_shape (fetch : String → FetchResult) (st : Stores) (user : APIUser)
    (options : List (String × String)) (c : String)
    (hc : findOption options "content" = some c)
    (ha : user.avatar ≠ some "") :
    ∀ p ∈ (sendDeet fetch st user options).posts,
      p.username = user.username ++ "#" ++ user.discriminator
      ∧ p.content = c
      ∧ p.allowedMentionsParse = []
      ∧ p.avatar_url = user.avatar.map
          (fun a => "https://cdn.discordapp.com/avatars/" ++ user.id ++ "/" ++ a ++ ".png")
      ∧ (p.avatar_url.isSome ↔ user.avatar.isSome) := by
  have hav : avatarUrl user = user.avatar.map
      (fun a => "https://cdn.discordapp.com/avatars/" ++ user.id ++ "/" ++ a ++ ".png") := by
    cases h : user.avatar with
    | none => simp [avatarUrl, h]
    | some a =>
        have : a ≠ "" := fun he => ha (by rw [h, he])
        simp [avatarUrl, h, this]
  intro p hp
  simp only [sendDeet, hc] at hp
  rcases List.mem_filterMap.mp hp with ⟨fo, _, hfo⟩
  cases hw : st.webhooks fo with
  | none => simp [mkDeetPost, hw] at hfo
  | some u =>
      by_cases hu : u = ""
      · simp [mkDeetPost, hw, hu] at hfo
      · have hred : mkDeetPost st.webhooks user c fo = some
            { url := u
              username := user.username ++ "#" ++ user.discriminator
              avatar_url := avatarUrl user
              content := c
              allowedMentionsParse := [] } := by
          simp [mkDeetPost, hw, hu]
        rw [hred] at hfo
        injection hfo with hfo
        subst hfo
        refine ⟨rfl, rfl, rfl, hav, ?_⟩
        show (avatarUrl user).isSome ↔ user.avatar.isSome
        rw [hav]
        cases user.avatar <;> simp

/-- C7: A broadcast by a user whose follower set is absent or empty issues
zero outbound posts and still answers the ephemeral `deet sent`
acknowledgement. -/
theorem broadcast_zero_followers (fetch : String → FetchResult) (st : Stores)
    (user : APIUser) (options : List (String × String)) (c : String)
    (hc : findOption options "content" = some c)
    (hf : st.followers user.id = none ∨ st.followers user.id = some []) :
    (sendDeet fetch st user options).posts = []
    ∧ (sendDeet fetch st user options).result = .ok (.channelMessage "deet sent" true) := by
  have hempty : getFollowersOrEmpty st user.id = [] := by
    rcases hf with h | h <;> simp [getFollowersOrEmpty, h]
  constructor
  · simp [sendDeet, hc, hempty]
  · simp [sendDeet, hc]

/-- C8: Webhook registration is last-write-wins: after registering `u1`
and then `u2` for the same user, the stored URL is `u2`; a broadcast whose
follower list contains that user resolves its delivery to `u2` (every post
built for that follower has URL `u2`, so the earlier `u1` is never used
again), and such a post is actually issued. -/
theorem setWebhook_lastWriteWins (st : Stores) (u : APIUser)
    (opts1 opts2 : List (String × String)) (u1 u2 : String)
    (bu : APIUser) (opts : List (String × String)) (c : String)
    (fetch : String → FetchResult)
    (h1 : findOption opts1 "url" = some u1)
    (h2 : findOption opts2 "url" = some u2)
    (hne : u2 ≠ "")
    (hc : findOption opts "content" = some c)
    (hfl : u.id ∈ getFollowersOrEmpty
        ((setWebhook (setWebhook st u opts1).stores u opts2).stores) bu.id) :
    ((setWebhook (setWebhook st u opts1).stores u opts2).stores).webhooks u.id = some u2
    ∧ (∀ p, mkDeetPost ((setWebhook (setWebhook st u opts1).stores u opts2).stores).webhooks
        bu c u.id = some p → p.url = u2)
    ∧ ∃ p ∈ (sendDeet fetch ((setWebhook (setWebhook st u opts1).stores u opts2).stores)
        bu opts).posts, p.url = u2 := by
  have hwh : ((setWebhook (setWebhook st u opts1).stores u opts2).stores).webhooks u.id
      = some u2 := by
    simp [setWebhook, h1, h2, putWebhooksStore]
  have hmk : mkDeetPost ((setWebhook (setWebhook st u opts1).stores u opts2).stores).webhooks
      bu c u.id = some
        { url := u2
          username := bu.username ++ "#" ++ bu.discriminator
          avatar_url := avatarUrl bu
          content := c
          allowedMentionsParse := [] } := by
    simp [mkDeetPost, hwh, hne]
  refine ⟨hwh, ?_, ?_⟩
  · intro p hp
    rw [hmk] at hp
    cases hp
    rfl
  · refine ⟨{ url := u2
              username := bu.username ++ "#" ++ bu.discriminator
              avatar_url := avatarUrl bu
              content := c
              allowedMentionsParse := [] }, ?_, rfl⟩
    have hposts : (sendDeet fetch ((setWebhook (setWebhook st u opts1).stores u opts2).stores)
        bu opts).posts
        = (getFollowersOrEmpty ((setWebhook (setWebhook st u opts1).stores u opts2).stores)
            bu.id).filterMap
            (mkDeetPost ((setWebhook (setWebhook st u opts1).stores u opts2).stores).webhooks
              bu c) := by
      simp [sendDeet, hc]
    rw [hposts]
    exact List.mem_filterMap.mpr ⟨u.id, hfl, hmk⟩

/-! ### Concrete fixtures for witnesses -/

/-- Fixture store: user `b` has followers `a` and `c`; only `a` has a
registered webhook URL. -/
def stW : Stores :=
  { followers := fun k => if k = "b" then some ["a", "c"] else none
    webhooks := fun k => if k = "a" then some "https://x.test/hook" else none }

/-- Fixture user `a` with an avatar hash. -/
def uA : APIUser :=
  { id := "a", username := "alice", discriminator := "0001", avatar := some "av" }

/-- Fixture user `b` without an avatar. -/
def uB : APIUser :=
  { id := "b", username := "bob", discriminator := "0002", avatar := none }

/-- Fetch oracle where every delivery succeeds. -/
def fetchOk : String → FetchResult := fun _ => .ok

/-- Fetch oracle where every delivery answers a non-OK response. -/
def fetch500 : String → FetchResult := fun _ => .notOk "internal error"

/-- Body parse oracle producing a ping interaction. -/
def parsePing : String → Option Interaction := fun _ => some .ping

/-- Signature verifier accepting exactly the requests that carry both
headers; it satisfies `verifierRejectsMissing`. -/
def verifyHeaders : String → Option String → Option String → Bool :=
  fun _ s t => s.isSome && t.isSome

/-- A POST request missing the signature header. -/
def reqNoSig : Request :=
  { method := "POST", signatureHeader := none, timestampHeader := some "123", body := "\x7b\x7d" }

/-- A POST request carrying both signature headers. -/
def reqSigned : Request :=
  { method := "POST", signatureHeader := some "sig", timestampHeader := some "123",
    body := "\x7b\x7d" }

/-- The `content` option list used by broadcast witnesses. -/
def optsContent : List (String × String) := [("content", "hello")]

/-- The single post issued when `b` broadcasts `hello` over `stW`. -/
def postA : WebhookPost :=
  { url := "https://x.test/hook", username := "bob#0002", avatar_url := none,
    content := "hello", allowedMentionsParse := [] }

/-! ### Witnesses -/

theorem unfollow_nonfollower_witness :
    ("a" ∈ getFollowersOrEmpty (unfollow stW uB "b").stores "b" ↔
        "a" ∈ getFollowersOrEmpty stW "b")
    ∧ (unfollow stW uB "b").result
        = .ok (.channelMessage ("unfollowed <@" ++ "b" ++ ">!") true) :=
  ⟨(unfollow_nonfollower stW uB "b" (by decide)).1 "a",
   (unfollow_nonfollower stW uB "b" (by decide)).2⟩

theorem followUnfollow_always_put_witness :
    (∃ v, (follow stW uA "b").ops = [.getFollowers "b", .putFollowers "b" v])
    ∧ (∃ v, (unfollow stW uA "b").ops = [.getFollowers "b", .putFollowers "b" v])
    ∧ ((unfollow stW uB "b").ops
        = [.getFollowers "b", .putFollowers "b" (jsSet (getFollowersOrEmpty stW "b"))]
      ∧ ("a" ∈ jsSet (getFollowersOrEmpty stW "b") ↔ "a" ∈ getFollowersOrEmpty stW "b")) :=
  ⟨(followUnfollow_always_put stW uA "b").1,
   (followUnfollow_always_put stW uA "b").2.1,
   ((followUnfollow_always_put stW uB "b").2.2 (by decide)).1,
   ((followUnfollow_always_put stW uB "b").2.2 (by decide)).2 "a"⟩

theorem invalid_signature_rejected_witness :
    (∃ e, (handleInteraction verifyHeaders parsePing fetchOk stW reqNoSig).result = .error e)
    ∧ (handleInteraction verifyHeaders parsePing fetchOk stW reqNoSig).stores = stW
    ∧ (handleInteraction verifyHeaders parsePing fetchOk stW reqNoSig).ops = []
    ∧ (handleInteraction verifyHeaders parsePing fetchOk stW reqNoSig).posts = []
    ∧ handleInteraction verifyHeaders parsePing fetchOk stW reqNoSig
        = handleInteraction verifyHeaders (fun _ => none) fetch500 stW reqNoSig :=
  invalid_signature_rejected verifyHeaders parsePing (fun _ => none) fetchOk fetch500 stW
    reqNoSig
    (Or.inr ⟨by
        intro b s t h
        rcases h with rfl | rfl
        · simp [verifyHeaders]
        · simp [verifyHeaders],
      Or.inl rfl⟩)

theorem ping_pong_witness :
    (handleInteraction verifyHeaders parsePing fetchOk stW reqSigned).result = .ok .pong
    ∧ (handleInteraction verifyHeaders parsePing fetchOk stW reqSigned).stores = stW
    ∧ (handleInteraction verifyHeaders parsePing fetchOk stW reqSigned).ops = []
    ∧ (handleInteraction verifyHeaders parsePing fetchOk stW reqSigned).posts = [] :=
  ping_pong_no_store_access verifyHeaders parsePing fetchOk stW reqSigned rfl rfl rfl

theorem deliveryFailure_isolated_witness :
    (sendDeet fetch500 stW uB optsContent).result = .ok (.channelMessage "deet sent" true)
    ∧ (sendDeet fetch500 stW uB optsContent).posts
        = (sendDeet fetchOk stW uB optsContent).posts
    ∧ (sendDeet fetch500 stW uB optsContent).stores = stW
    ∧ ("response not OK: " ++ "internal error")
        ∈ (sendDeet fetch500 stW uB optsContent).warnings :=
  ⟨(deliveryFailure_isolated fetch500 fetchOk stW uB optsContent "hello" rfl).1,
   (deliveryFailure_isolated fetch500 fetchOk stW uB optsContent "hello" rfl).2.1,
   (deliveryFailure_isolated fetch500 fetchOk stW uB optsContent "hello" rfl).2.2.1,
   (deliveryFailure_isolated fetch500 fetchOk stW uB optsContent "hello" rfl).2.2.2
     postA (by decide) ("response not OK: " ++ "internal error") rfl⟩

theorem broadcast_skips_unregistered_witness :
    (sendDeet fetchOk stW uB optsContent).posts.length
      = (getFollowersOrEmpty stW uB.id).length - 1 :=
  broadcast_skips_unregistered fetchOk stW uB optsContent "hello" rfl (by decide)
    (by
      intro fo hfo u hu
      have hfo' : fo = "a" ∨ fo = "c" := by
        simpa [getFollowersOrEmpty, stW, uB] using hfo
      rcases hfo' with rfl | rfl
      · have hu' : "https://x.test/hook" = u := by simpa [stW] using hu
        subst hu'
        decide
      · simp [stW] at hu)

theorem deet_post_shape_witness :
    postA.username = uB.username ++ "#" ++ uB.discriminator
    ∧ postA.content = "hello"
    ∧ postA.allowedMentionsParse = []
    ∧ postA.avatar_url = uB.avatar.map
        (fun a => "https://cdn.discordapp.com/avatars/" ++ uB.id ++ "/" ++ a ++ ".png")
    ∧ (postA.avatar_url.isSome ↔ uB.avatar.isSome) :=
  deet_post_shape fetchOk stW uB optsContent "hello" rfl (by decide) postA (by decide)

theorem broadcast_zero_followers_witness :
    (sendDeet fetchOk stW uA optsContent).posts = []
    ∧ (sendDeet fetchOk stW uA optsContent).result
        = .ok (.channelMessage "deet sent" true) :=
  broadcast_zero_followers fetchOk stW uA optsContent "hello" rfl (Or.inl (by decide))

theorem setWebhook_lastWriteWins_witness :
    ((setWebhook (setWebhook stW uA [("url", "https://u1.test")]).stores uA
        [("url", "https://u2.test")]).stores).webhooks uA.id = some "https://u2.test"
    ∧ ∃ p ∈ (sendDeet fetchOk
        ((setWebhook (setWebhook stW uA [("url", "https://u1.test")]).stores uA
          [("url", "https://u2.test")]).stores) uB optsContent).posts,
        p.url = "https://u2.test" :=
  ⟨(setWebhook_lastWriteWins stW uA [("url", "https://u1.test")] [("url", "https://u2.test")]
      "https://u1.test" "https://u2.test" uB optsContent "hello" fetchOk
      rfl rfl (by decide) rfl (by decide)).1,
   (setWebhook_lastWriteWins stW uA [("url", "https://u1.test")] [("url", "https://u2.test")]
      "https://u1.test" "https://u2.test" uB optsContent "hello" fetchOk
      rfl rfl (by decide) rfl (by decide)).2.2⟩

end Ditter
